import Mathlib

/-!
# Traffic-light Moore machine, SysTick delay, pacemaker port, time stamps

A shallow embedding of `Traffic Light Simulator/main.c` and `SysTick.c`, of the
Port F output operations of `Pacemaker/main.c`, and of the time-stamp
recording of `Functional Debugging/main.c`.

* `unsigned long` is 32 bits wide on the Cortex-M target; values are `Nat`,
  reduced modulo `2 ^ 32` where the C arithmetic can wrap.
* Globals and memory-mapped registers are fields of `Machine`.
* Volatile accesses that reach the outside world (light port, sensor port,
  SysTick busy-wait) are logged in `Machine.trace`, oldest first.
* An array access outside its bounds has no defined result: the embedding
  returns `none`.
-/

namespace TrafficLight

/-- Number of values of a 32-bit `unsigned long`. -/
def ULONG_MOD : Nat := 2 ^ 32

/-! ## State identifiers (`#define goN 0` ...) -/

def goN : Nat := 0
def waitN : Nat := 1
def goE : Nat := 2
def waitE : Nat := 3

/-- The record `struct State` (`STyp`): output pattern, hold time in 10 ms
units, and the next-state array indexed by the sensor value. -/
structure STyp where
  Out : Nat
  Time : Nat
  Next : List Nat
deriving DecidableEq, Repr

/-- The initialiser of the global `STyp FSM[4]`. -/
def FSM : List STyp :=
  [ ⟨0x21, 3000, [goN, waitN, goN, waitN]⟩,
    ⟨0x22, 500, [goE, goE, goE, goE]⟩,
    ⟨0x0C, 3000, [goE, goE, waitE, waitE]⟩,
    ⟨0x14, 500, [goN, goN, goN, goN]⟩ ]

/-- Externally visible actions of the program. -/
inductive Event where
  /-- A store to `LIGHT` (Port B, bits 5-0). -/
  | lightWrite (pattern : Nat)
  /-- One call `SysTick_Wait(delay)` that ran to completion. -/
  | sysTickWait (delay : Nat)
  /-- A load from `SENSOR` (Port E, bits 1-0) that returned `value`. -/
  | sensorRead (value : Nat)
deriving DecidableEq, Repr

/-- Globals of `main.c` together with the registers the loop touches. -/
structure Machine where
  /-- The global table; it is not `const`, so it is part of the state. -/
  FSM : List STyp
  /-- Index to the current state. -/
  S : Nat
  Input : Nat
  LIGHT : Nat
  NVIC_ST_RELOAD_R : Nat
  NVIC_ST_CURRENT_R : Nat
  trace : List Event
deriving DecidableEq, Repr

/-! ## `SysTick.c` -/

/-- The value `delay - 1` in `unsigned long` arithmetic: zero wraps around to
the largest `unsigned long`. -/
def reloadOf (delay : Nat) : Nat :=
  if delay % ULONG_MOD = 0 then ULONG_MOD - 1 else delay % ULONG_MOD - 1

/-- `SysTick_Wait(delay)`: program the reload register with `delay - 1`, clear
the current-value register, then spin until the count flag is raised.  The
spin is observable only through its duration, logged as one `sysTickWait`. -/
def SysTick_Wait (delay : Nat) (m : Machine) : Machine :=
  { m with
    NVIC_ST_RELOAD_R := reloadOf delay
    NVIC_ST_CURRENT_R := 0
    trace := m.trace ++ [Event.sysTickWait delay] }

/-- The loop `for (unsigned long i = 0; i < delay; i++) SysTick_Wait(800000);`
entered with counter `i`; `fuel` bounds the number of iterations and running
out of it yields `none`. -/
def SysTick_Wait10ms_for : Nat → Nat → Nat → Machine → Option Machine
  | 0, i, delay, m => if i < delay then none else some m
  | fuel + 1, i, delay, m =>
    if i < delay then
      SysTick_Wait10ms_for fuel ((i + 1) % ULONG_MOD) delay (SysTick_Wait 800000 m)
    else some m

/-- `SysTick_Wait10ms(delay)`.  A 32-bit counter can take at most `2 ^ 32`
values, which is the fuel handed to the loop. -/
def SysTick_Wait10ms (delay : Nat) (m : Machine) : Option Machine :=
  SysTick_Wait10ms_for ULONG_MOD 0 delay m

/-! ## `main` -/

/-- The machine when `main` reaches `while(1)`: the table holds its
initialiser, `S = goN`, `Input` is still zero, the trace is empty; the
register contents left by the initialisation calls are arbitrary. -/
def boot (light reload current : Nat) : Machine :=
  { FSM := FSM, S := goN, Input := 0, LIGHT := light,
    NVIC_ST_RELOAD_R := reload, NVIC_ST_CURRENT_R := current, trace := [] }

/-- One pass through the body of `while(1)`, the load from `SENSOR`
returning `sensor`:
```
LIGHT = FSM[S].Out;
SysTick_Wait10ms(FSM[S].Time);
Input = SENSOR;
S = FSM[S].Next[Input];
```
-/
def loopBody (m : Machine) (sensor : Nat) : Option Machine := do
  let st ← m.FSM[m.S]?
  let m1 : Machine := { m with LIGHT := st.Out, trace := m.trace ++ [Event.lightWrite st.Out] }
  let st1 ← m1.FSM[m1.S]?
  let m2 ← SysTick_Wait10ms st1.Time m1
  let m3 : Machine := { m2 with Input := sensor, trace := m2.trace ++ [Event.sensorRead sensor] }
  let st3 ← m3.FSM[m3.S]?
  let next ← st3.Next[m3.Input]?
  some { m3 with S := next }

/-- The loop `while(1)` run for as many passes as there are sensor values. -/
def mainLoop : Machine → List Nat → Option Machine
  | m, [] => some m
  | m, r :: rs => (loopBody m r).bind (fun m1 => mainLoop m1 rs)

/-! ## Reading a light pattern (pin assignment of the file header) -/

/-- East-road pins: red PB5, yellow PB4, green PB3. -/
def eastPins : List Nat := [5, 4, 3]

/-- North-road pins: red PB2, yellow PB1, green PB0. -/
def northPins : List Nat := [2, 1, 0]

/-- How many of the given pins are high in `pattern`. -/
def litCount (pattern : Nat) (pins : List Nat) : Nat :=
  (pins.filter (fun k => pattern.testBit k)).length

def eastRed (p : Nat) : Bool := p.testBit 5
def eastYellow (p : Nat) : Bool := p.testBit 4
def eastGreen (p : Nat) : Bool := p.testBit 3
def northRed (p : Nat) : Bool := p.testBit 2
def northYellow (p : Nat) : Bool := p.testBit 1
def northGreen (p : Nat) : Bool := p.testBit 0

/-- The patterns stored to `LIGHT`, in order. -/
def lightWrites : List Event → List Nat
  | [] => []
  | Event.lightWrite p :: es => p :: lightWrites es
  | _ :: es => lightWrites es

/-- The values loaded from `SENSOR`, in order. -/
def sensorReads : List Event → List Nat
  | [] => []
  | Event.sensorRead v :: es => v :: sensorReads es
  | _ :: es => sensorReads es

/-! ## Nominal timing of the SysTick busy-wait -/

/-- Bus cycles counted by one completed `SysTick_Wait(delay)`: the 24-bit
down-counter is loaded with the reload value and the flag rises when it has
counted down to zero, that is after `reload + 1` counts. -/
def waitCycles (delay : Nat) : Nat := reloadOf delay % 2 ^ 24 + 1

/-- Bus cycles spent in the `SysTick_Wait` calls of a trace. -/
def busCycles : List Event → Nat
  | [] => 0
  | Event.sysTickWait d :: es => waitCycles d + busCycles es
  | _ :: es => busCycles es

/-- Period of the 80 MHz bus clock, 12.5 ns, in picoseconds. -/
def BUS_PERIOD_PS : Nat := 12500

/-- Ten milliseconds in picoseconds. -/
def TEN_MS_PS : Nat := 10 * 1000 * 1000 * 1000

/-- One second in picoseconds. -/
def SECOND_PS : Nat := 1000 * 1000 * 1000 * 1000

/-- What two patterns shown in consecutive passes must satisfy for a clearance
phase to separate the greens: a road that shows green shows green or yellow,
and not red, in the next pass; a road that shows green showed green in the
pass before, or else the other road showed yellow then. -/
def clearanceStep (p q : Nat) : Prop :=
  (northGreen p = true → (northGreen q = true ∨ northYellow q = true) ∧ northRed q = false) ∧
  (eastGreen p = true → (eastGreen q = true ∨ eastYellow q = true) ∧ eastRed q = false) ∧
  (northGreen q = true → northGreen p = true ∨ eastYellow p = true) ∧
  (eastGreen q = true → eastGreen p = true ∨ northYellow p = true)

/-! ## Total readings of the table, used to state results -/

/-- The record `FSM[s]` (a record of zeros when `s` is out of range). -/
def stateAt (s : Nat) : STyp := FSM.getD s ⟨0, 0, []⟩

/-- The entry `FSM[s].Next[r]` (zero when an index is out of range). -/
def nextOf (s r : Nat) : Nat := (stateAt s).Next.getD r 0

/-- The entry `FSM[s].Next[r]` as the C expression evaluates it: `none` when
an index is out of range. -/
def lookupNext (s r : Nat) : Option Nat := (FSM[s]?).bind (fun st => st.Next[r]?)

/-- One store of `out` to `LIGHT`, then `time` completed calls
`SysTick_Wait(800000)`, then one load from `SENSOR` returning `r`. -/
def passEvents (out time r : Nat) : List Event :=
  Event.lightWrite out :: (List.replicate time (Event.sysTickWait 800000) ++ [Event.sensorRead r])

/-- The events of one pass through the loop body in state `s` when the sensor
returns `r`. -/
def passTrace (s r : Nat) : List Event := passEvents (stateAt s).Out (stateAt s).Time r

/-- The cursor after the sensor values `rs` have been consumed from state `s`. -/
def cursorAfter : Nat → List Nat → Nat
  | s, [] => s
  | s, r :: rs => cursorAfter (nextOf s r) rs

/-- The states in which the passes for the sensor values `rs` are made. -/
def visited : Nat → List Nat → List Nat
  | _, [] => []
  | s, r :: rs => s :: visited (nextOf s r) rs

/-- The events of the passes for the sensor values `rs`, starting in state `s`. -/
def runTrace : Nat → List Nat → List Event
  | _, [] => []
  | s, r :: rs => passTrace s r ++ runTrace (nextOf s r) rs

/-- The machine after one pass through the loop body started in `m`, the
sensor returning `r`. -/
def afterPass (m : Machine) (r : Nat) : Machine :=
  { FSM := m.FSM, S := nextOf m.S r, Input := r, LIGHT := (stateAt m.S).Out,
    NVIC_ST_RELOAD_R := reloadOf 800000, NVIC_ST_CURRENT_R := 0,
    trace := m.trace ++ passTrace m.S r }

end TrafficLight

/-! # Pacemaker: the Port F output operations (`Pacemaker/main.c`)

Each operation is a read-modify-write of `GPIO_PORTF_DATA_R`; it is embedded
as a function from the register content read to the content written back. -/

namespace Pacemaker

/-- Largest value of a 32-bit `unsigned long`. -/
def ULONG_MAX : Nat := 0xFFFFFFFF

/-- The operand `~mask` of `&=`, as an `unsigned long`: each of the 32 bits of
`mask` inverted. -/
def complement (mask : Nat) : Nat := ULONG_MAX - mask % (ULONG_MAX + 1)

/-- `GPIO_PORTF_DATA_R |= 0x2;` (PF1 denotes VT). -/
def SetVT (GPIO_PORTF_DATA_R : Nat) : Nat := GPIO_PORTF_DATA_R ||| 0x2

/-- `GPIO_PORTF_DATA_R &= ~0x2;` -/
def ClearVT (GPIO_PORTF_DATA_R : Nat) : Nat := GPIO_PORTF_DATA_R &&& complement 0x2

/-- `GPIO_PORTF_DATA_R |= 0x8;` (PF3 denotes Ready). -/
def SetReady (GPIO_PORTF_DATA_R : Nat) : Nat := GPIO_PORTF_DATA_R ||| 0x8

/-- `GPIO_PORTF_DATA_R &= ~0x8;` -/
def ClearReady (GPIO_PORTF_DATA_R : Nat) : Nat := GPIO_PORTF_DATA_R &&& complement 0x8

end Pacemaker

/-! # Functional debugging: the recorded time stamps (`Functional Debugging/main.c`) -/

namespace FunctionalDebugging

/-- Number of values of a 32-bit `unsigned long`. -/
def ULONG_MOD : Nat := 2 ^ 32

/-- The difference `a - b` in `unsigned long` arithmetic: a negative result
wraps around by `2 ^ 32`. -/
def sub32 (a b : Nat) : Nat :=
  if b % ULONG_MOD ≤ a % ULONG_MOD then a % ULONG_MOD - b % ULONG_MOD
  else ULONG_MOD - (b % ULONG_MOD - a % ULONG_MOD)

/-- The expression `(last-now) & 0x00FFFFFF` stored in `Time[i]`. -/
def timeStamp (last now : Nat) : Nat := sub32 last now &&& 0x00FFFFFF

/-- The globals `Time`, `Data` and the locals `i`, `last`, `now` of `main`. -/
structure Recorder where
  Time : List Nat
  Data : List Nat
  i : Nat
  last : Nat
  now : Nat
deriving DecidableEq, Repr

/-- The recording block of the loop, entered when the masked port value has
changed; `current` is what `NVIC_ST_CURRENT_R` returns and `data` what
`GPIO_PORTF_DATA_R` returns:
```
if(i < 50) {
  now = NVIC_ST_CURRENT_R;
  Time[i] = (last-now) & 0x00FFFFFF;
  Data[i] = GPIO_PORTF_DATA_R & 0x13;
  last = now;
  i++;
}
```
-/
def record (st : Recorder) (current data : Nat) : Recorder :=
  if st.i < 50 then
    { Time := st.Time.set st.i (timeStamp st.last current)
      Data := st.Data.set st.i (data &&& 0x13)
      i := (st.i + 1) % ULONG_MOD
      last := current
      now := current }
  else st

/-- The recorder when `main` enters `while(1)`: the global arrays are zero,
`i = 0`, `last` holds the first reading `current` of `NVIC_ST_CURRENT_R`, and
the local `now` has not been assigned yet. -/
def start (current now : Nat) : Recorder :=
  { Time := List.replicate 50 0, Data := List.replicate 50 0, i := 0, last := current,
    now := now }

/-- One bus clock of the SysTick down-counter as `SysTick_Init` programs it
(`NVIC_ST_RELOAD_R = 0x00FFFFFF`): the counter decrements, and from zero it
is reloaded with the reload value. -/
def tick (current : Nat) : Nat := if current = 0 then 0x00FFFFFF else current - 1

end FunctionalDebugging

namespace TrafficLight

/-- No road conflict in a pattern: not (north green or yellow) together with
(east green or yellow). -/
def noConflict (p : Nat) : Prop :=
  ¬ ((northGreen p = true ∨ northYellow p = true) ∧ (eastGreen p = true ∨ eastYellow p = true))

/-! ## Auxiliary lemmas: the delay loop -/

theorem SysTick_Wait10ms_for_eq (fuel : Nat) :
    ∀ (i delay : Nat) (m : Machine), delay < ULONG_MOD → i ≤ delay → delay - i ≤ fuel →
      SysTick_Wait10ms_for fuel i delay m = some ((SysTick_Wait 800000)^[delay - i] m) := by
  induction fuel with
  | zero =>
    intro i delay m _ hi hf
    have hid : delay - i = 0 := by omega
    have hlt : ¬ i < delay := by omega
    simp [SysTick_Wait10ms_for, hlt, hid]
  | succ fuel ih =>
    intro i delay m hd hi hf
    by_cases hlt : i < delay
    · have hmod : (i + 1) % ULONG_MOD = i + 1 := Nat.mod_eq_of_lt (by omega)
      have hstep : delay - i = (delay - (i + 1)) + 1 := by omega
      rw [SysTick_Wait10ms_for, if_pos hlt, hmod, ih (i + 1) delay _ hd (by omega) (by omega),
        hstep, Function.iterate_succ_apply]
    · have hid : delay - i = 0 := by omega
      simp [SysTick_Wait10ms_for, hlt, hid]

theorem SysTick_Wait10ms_eq (delay : Nat) (m : Machine) (hd : delay < ULONG_MOD) :
    SysTick_Wait10ms delay m = some ((SysTick_Wait 800000)^[delay] m) := by
  have h := SysTick_Wait10ms_for_eq ULONG_MOD 0 delay m hd (Nat.zero_le _) (by omega)
  rw [Nat.sub_zero] at h
  rw [SysTick_Wait10ms]
  exact h

theorem SysTick_Wait_FSM (d : Nat) (m : Machine) : (SysTick_Wait d m).FSM = m.FSM := rfl
theorem SysTick_Wait_S (d : Nat) (m : Machine) : (SysTick_Wait d m).S = m.S := rfl
theorem SysTick_Wait_Input (d : Nat) (m : Machine) :
    (SysTick_Wait d m).Input = m.Input := rfl
theorem SysTick_Wait_LIGHT (d : Nat) (m : Machine) :
    (SysTick_Wait d m).LIGHT = m.LIGHT := rfl
theorem SysTick_Wait_RELOAD (d : Nat) (m : Machine) :
    (SysTick_Wait d m).NVIC_ST_RELOAD_R = reloadOf d := rfl
theorem SysTick_Wait_CURRENT (d : Nat) (m : Machine) :
    (SysTick_Wait d m).NVIC_ST_CURRENT_R = 0 := rfl
theorem SysTick_Wait_trace (d : Nat) (m : Machine) :
    (SysTick_Wait d m).trace = m.trace ++ [Event.sysTickWait d] := rfl

theorem iterate_wait_trace (d n : Nat) :
    ∀ m : Machine, ((SysTick_Wait d)^[n] m).trace
      = m.trace ++ List.replicate n (Event.sysTickWait d) := by
  induction n with
  | zero => intro m; simp
  | succ n ih =>
    intro m
    rw [Function.iterate_succ_apply, ih, List.replicate_succ, SysTick_Wait_trace,
      List.append_assoc, List.singleton_append]

theorem iterate_wait_frame (d n : Nat) :
    ∀ m : Machine, ((SysTick_Wait d)^[n] m).FSM = m.FSM ∧ ((SysTick_Wait d)^[n] m).S = m.S
      ∧ ((SysTick_Wait d)^[n] m).Input = m.Input ∧ ((SysTick_Wait d)^[n] m).LIGHT = m.LIGHT := by
  induction n with
  | zero => intro m; simp
  | succ n ih =>
    intro m
    rw [Function.iterate_succ_apply]
    have h := ih (SysTick_Wait d m)
    rw [SysTick_Wait_FSM, SysTick_Wait_S, SysTick_Wait_Input, SysTick_Wait_LIGHT] at h
    exact h

theorem iterate_wait_regs (d n : Nat) (hn : 0 < n) :
    ∀ m : Machine, ((SysTick_Wait d)^[n] m).NVIC_ST_RELOAD_R = reloadOf d
      ∧ ((SysTick_Wait d)^[n] m).NVIC_ST_CURRENT_R = 0 := by
  intro m
  obtain ⟨k, rfl⟩ : ∃ k, n = k + 1 := ⟨n - 1, by omega⟩
  rw [Function.iterate_succ_apply']
  exact ⟨SysTick_Wait_RELOAD _ _, SysTick_Wait_CURRENT _ _⟩

theorem iterate_wait_FSM (d n : Nat) (m : Machine) :
    ((SysTick_Wait d)^[n] m).FSM = m.FSM := (iterate_wait_frame d n m).1

theorem iterate_wait_S (d n : Nat) (m : Machine) :
    ((SysTick_Wait d)^[n] m).S = m.S := (iterate_wait_frame d n m).2.1

theorem iterate_wait_Input (d n : Nat) (m : Machine) :
    ((SysTick_Wait d)^[n] m).Input = m.Input := (iterate_wait_frame d n m).2.2.1

theorem iterate_wait_LIGHT (d n : Nat) (m : Machine) :
    ((SysTick_Wait d)^[n] m).LIGHT = m.LIGHT := (iterate_wait_frame d n m).2.2.2

/-! ## Auxiliary lemmas: the table -/

theorem FSM_lookup (s : Nat) (hs : s < 4) : FSM[s]? = some (stateAt s) := by
  interval_cases s <;> rfl

theorem Next_lookup (s r : Nat) (hs : s < 4) (hr : r < 4) :
    (stateAt s).Next[r]? = some (nextOf s r) := by
  interval_cases s <;> interval_cases r <;> rfl

theorem Time_lt (s : Nat) (hs : s < 4) : (stateAt s).Time < ULONG_MOD := by
  interval_cases s <;> decide

theorem Time_pos (s : Nat) (hs : s < 4) : 0 < (stateAt s).Time := by
  interval_cases s <;> decide

theorem nextOf_lt (s r : Nat) (hs : s < 4) (hr : r < 4) : nextOf s r < 4 := by
  interval_cases s <;> interval_cases r <;> decide

/-! ## Auxiliary lemmas: one pass and many passes -/

theorem loopBody_spec (m : Machine) (r : Nat) (hF : m.FSM = FSM) (hS : m.S < 4) (hr : r < 4) :
    loopBody m r = some (afterPass m r) := by
  have hst : m.FSM[m.S]? = some (stateAt m.S) := by rw [hF]; exact FSM_lookup _ hS
  have hnx := Next_lookup m.S r hS hr
  have ht := Time_lt m.S hS
  have hregs := iterate_wait_regs 800000 _ (Time_pos m.S hS)
  simp only [loopBody, hst, Option.bind_eq_bind, Option.some_bind, SysTick_Wait10ms_eq _ _ ht,
      iterate_wait_FSM, iterate_wait_S, hnx, afterPass, Option.some.injEq, Machine.mk.injEq,
      iterate_wait_LIGHT, iterate_wait_trace, hregs, passTrace, passEvents]
  simp

theorem mainLoop_spec (rs : List Nat) :
    ∀ m : Machine, m.FSM = FSM → m.S < 4 → (∀ r ∈ rs, r < 4) →
      ∃ m1, mainLoop m rs = some m1 ∧ m1.FSM = FSM ∧ m1.S = cursorAfter m.S rs
        ∧ m1.S < 4 ∧ m1.trace = m.trace ++ runTrace m.S rs := by
  induction rs with
  | nil => intro m hF hS _; exact ⟨m, rfl, hF, rfl, hS, by simp [runTrace]⟩
  | cons r rs ih =>
    intro m hF hS hrs
    have hr : r < 4 := hrs r (List.mem_cons_self _ _)
    have hnext : (afterPass m r).S < 4 := nextOf_lt m.S r hS hr
    obtain ⟨m1, h1, hF1, hS1, hlt, ht1⟩ :=
      ih (afterPass m r) hF hnext (fun x hx => hrs x (List.mem_cons_of_mem _ hx))
    refine ⟨m1, ?_, hF1, hS1, hlt, ?_⟩
    · rw [mainLoop, loopBody_spec m r hF hS hr, Option.some_bind]
      exact h1
    · rw [ht1]
      simp [afterPass, runTrace]

theorem lightWrites_append (a b : List Event) :
    lightWrites (a ++ b) = lightWrites a ++ lightWrites b := by
  induction a with
  | nil => rfl
  | cons e a ih => cases e <;> simp [lightWrites, ih]

theorem lightWrites_replicate (n d : Nat) :
    lightWrites (List.replicate n (Event.sysTickWait d)) = [] := by
  induction n with
  | zero => rfl
  | succ n ih => simpa [List.replicate_succ, lightWrites] using ih

theorem lightWrites_passEvents (out time r : Nat) :
    lightWrites (passEvents out time r) = [out] := by
  simp [passEvents, lightWrites, lightWrites_append, lightWrites_replicate]

theorem lightWrites_runTrace (rs : List Nat) :
    ∀ s, lightWrites (runTrace s rs) = (visited s rs).map (fun x => (stateAt x).Out) := by
  induction rs with
  | nil => intro s; rfl
  | cons r rs ih =>
    intro s
    simp [runTrace, visited, lightWrites_append, passTrace, lightWrites_passEvents, ih]

theorem visited_lt (rs : List Nat) :
    ∀ s, s < 4 → (∀ r ∈ rs, r < 4) → ∀ x ∈ visited s rs, x < 4 := by
  induction rs with
  | nil => intro s _ _ x hx; simp [visited] at hx
  | cons r rs ih =>
    intro s hs hrs x hx
    simp only [visited, List.mem_cons] at hx
    rcases hx with rfl | hx
    · exact hs
    · exact ih (nextOf s r) (nextOf_lt s r hs (hrs r (List.mem_cons_self _ _)))
        (fun y hy => hrs y (List.mem_cons_of_mem _ hy)) x hx

theorem boot_S_lt (light reload current : Nat) : (boot light reload current).S < 4 := by
  show goN < 4
  decide

theorem dropLast_pass (t : List Event) (out time r : Nat) :
    (t ++ passEvents out time r).dropLast
      = t ++ Event.lightWrite out :: List.replicate time (Event.sysTickWait 800000) := by
  have h : t ++ passEvents out time r
      = (t ++ Event.lightWrite out :: List.replicate time (Event.sysTickWait 800000))
        ++ [Event.sensorRead r] := by
    simp [passEvents]
  rw [h, List.dropLast_concat]

theorem cursorAfter_hold (rs : List Nat) (h : ∀ r ∈ rs, r = 0 ∨ r = 2) :
    cursorAfter goN rs = goN := by
  induction rs with
  | nil => rfl
  | cons r rs ih =>
    have hr := h r (List.mem_cons_self _ _)
    have hn : nextOf goN r = goN := by rcases hr with rfl | rfl <;> rfl
    rw [cursorAfter, hn]
    exact ih (fun x hx => h x (List.mem_cons_of_mem _ hx))

theorem visited_hold (rs : List Nat) (h : ∀ r ∈ rs, r = 0 ∨ r = 2) :
    ∀ x ∈ visited goN rs, x = goN := by
  induction rs with
  | nil => intro x hx; simp [visited] at hx
  | cons r rs ih =>
    have hr := h r (List.mem_cons_self _ _)
    have hn : nextOf goN r = goN := by rcases hr with rfl | rfl <;> rfl
    intro x hx
    rw [visited, hn, List.mem_cons] at hx
    rcases hx with rfl | hx
    · rfl
    · exact ih (fun y hy => h y (List.mem_cons_of_mem _ hy)) x hx

theorem mainLoop_cursor (rs : List Nat) (hrs : ∀ x ∈ rs, x < 4) (light reload current : Nat) :
    (mainLoop (boot light reload current) rs).map Machine.S = some (cursorAfter goN rs) := by
  obtain ⟨m, hm, _, hS, _, _⟩ := mainLoop_spec rs (boot light reload current) rfl
    (boot_S_lt _ _ _) hrs
  rw [hm, Option.map_some', hS]
  rfl

theorem mainLoop_trace (rs : List Nat) (hrs : ∀ x ∈ rs, x < 4) (light reload current : Nat) :
    (mainLoop (boot light reload current) rs).map Machine.trace = some (runTrace goN rs) := by
  obtain ⟨m, hm, _, _, _, ht⟩ := mainLoop_spec rs (boot light reload current) rfl
    (boot_S_lt _ _ _) hrs
  rw [hm, Option.map_some', ht]
  rfl

theorem nextOf_waitN (r : Nat) (hr : r < 4) : nextOf waitN r = goE := by
  interval_cases r <;> rfl

theorem nextOf_waitE (r : Nat) (hr : r < 4) : nextOf waitE r = goN := by
  interval_cases r <;> rfl

theorem clearanceStep_table (s r : Nat) (hs : s < 4) (hr : r < 4) :
    clearanceStep (stateAt s).Out (stateAt (nextOf s r)).Out := by
  unfold clearanceStep
  interval_cases s <;> interval_cases r <;> decide

theorem chain_visited (rs : List Nat) :
    ∀ s, s < 4 → (∀ r ∈ rs, r < 4) →
      List.Chain' clearanceStep ((visited s rs).map (fun x => (stateAt x).Out)) := by
  induction rs with
  | nil => intro s _ _; exact List.chain'_nil
  | cons r rs ih =>
    intro s hs hrs
    have hr : r < 4 := hrs r (List.mem_cons_self _ _)
    have hrs1 : ∀ x ∈ rs, x < 4 := fun x hx => hrs x (List.mem_cons_of_mem _ hx)
    have hrest := ih (nextOf s r) (nextOf_lt s r hs hr) hrs1
    rw [visited, List.map_cons, List.chain'_cons']
    refine ⟨?_, hrest⟩
    intro y hy
    cases rs with
    | nil => simp [visited] at hy
    | cons r1 rs1 =>
      simp only [visited, List.map_cons, List.head?_cons, Option.mem_def,
        Option.some.injEq] at hy
      rw [← hy]
      exact clearanceStep_table s r hs hr

theorem busCycles_append (a b : List Event) :
    busCycles (a ++ b) = busCycles a + busCycles b := by
  induction a with
  | nil => simp [busCycles]
  | cons e a ih => cases e <;> simp [busCycles, ih, Nat.add_assoc]

theorem busCycles_replicate (n d : Nat) :
    busCycles (List.replicate n (Event.sysTickWait d)) = waitCycles d * n := by
  induction n with
  | zero => rfl
  | succ n ih => rw [List.replicate_succ, busCycles, ih, Nat.mul_succ, Nat.add_comm]

theorem reloadOf_800000 : reloadOf 800000 = 799999 := by decide

theorem waitCycles_800000 : waitCycles 800000 = 800000 := by
  rw [waitCycles, reloadOf_800000]
  decide

theorem busCycles_passEvents (out time r : Nat) :
    busCycles (passEvents out time r) = 800000 * time := by
  simp [passEvents, busCycles, busCycles_append, busCycles_replicate, waitCycles_800000]

/-! ## The control loop -/

/-- C1: one pass through the loop body, started with the initial table and
cursor `S = s < 4` and with the sensor returning `r < 4`, completes; it appends
to the trace exactly one store of `FSM[s].Out` to the light port, then
`FSM[s].Time` waits of ten milliseconds, then one sensor load, and ends with
`S = FSM[s].Next[r]` and the table unchanged.  The stored pattern and the
events before the sensor load are the same whatever the sensor returns. -/
theorem C1_one_pass (m : Machine) (s r : Nat) (hF : m.FSM = FSM) (hS : m.S = s)
    (hs : s < 4) (hr : r < 4) :
    ∃ st next m1, FSM[s]? = some st ∧ st.Next[r]? = some next ∧ loopBody m r = some m1
      ∧ m1.trace = m.trace ++ passEvents st.Out st.Time r
      ∧ m1.LIGHT = st.Out ∧ m1.Input = r ∧ m1.S = next ∧ m1.FSM = FSM
      ∧ ∀ r2, r2 < 4 → ∃ m2, loopBody m r2 = some m2 ∧ m2.LIGHT = m1.LIGHT
          ∧ m2.trace.dropLast = m1.trace.dropLast := by
  subst hS
  refine ⟨stateAt m.S, nextOf m.S r, afterPass m r, FSM_lookup _ hs, Next_lookup _ _ hs hr,
    loopBody_spec m r hF hs hr, rfl, rfl, rfl, rfl, hF, ?_⟩
  intro r2 hr2
  refine ⟨afterPass m r2, loopBody_spec m r2 hF hs hr2, rfl, ?_⟩
  simp only [afterPass, passTrace, dropLast_pass]

theorem C1_one_pass_witness :
    (boot 0 0 0).FSM = FSM ∧ (boot 0 0 0).S = 0 ∧ 0 < 4 ∧ 1 < 4 ∧
    ∃ st next m1, FSM[0]? = some st ∧ st.Next[1]? = some next
      ∧ loopBody (boot 0 0 0) 1 = some m1
      ∧ m1.trace = (boot 0 0 0).trace ++ passEvents st.Out st.Time 1
      ∧ m1.LIGHT = st.Out ∧ m1.Input = 1 ∧ m1.S = next ∧ m1.FSM = FSM
      ∧ ∀ r2, r2 < 4 → ∃ m2, loopBody (boot 0 0 0) r2 = some m2 ∧ m2.LIGHT = m1.LIGHT
          ∧ m2.trace.dropLast = m1.trace.dropLast :=
  ⟨rfl, rfl, by decide, by decide, C1_one_pass (boot 0 0 0) 0 1 rfl rfl (by decide) (by decide)⟩

/-- C2: every entry `FSM[s].Next[r]` with `s < 4` and `r < 4` is one of the four
state identifiers, hence below 4; and from the initial machine (`S = goN`) the
loop completes every finite sequence of passes whose sensor values are below 4
(no lookup is out of bounds) and leaves `S` a valid index of the table. -/
theorem C2_cursor_in_range (s r : Nat) (hs : s < 4) (hr : r < 4) (rs : List Nat)
    (hrs : ∀ x ∈ rs, x < 4) (light reload current : Nat) :
    (∃ next, lookupNext s r = some next ∧ next < 4 ∧ next ∈ [goN, waitN, goE, waitE]) ∧
    (∃ m, mainLoop (boot light reload current) rs = some m ∧ m.S < 4 ∧ m.FSM = FSM
      ∧ m.S < m.FSM.length) := by
  constructor
  · interval_cases s <;> interval_cases r <;> decide
  · obtain ⟨m, hm, hF, _, hlt, _⟩ :=
      mainLoop_spec rs (boot light reload current) rfl (boot_S_lt _ _ _) hrs
    refine ⟨m, hm, hlt, hF, ?_⟩
    rw [hF]
    exact hlt

theorem C2_cursor_in_range_witness :
    2 < 4 ∧ 3 < 4 ∧ (∀ x ∈ [1, 0, 3, 2], x < 4) ∧
    (∃ next, lookupNext 2 3 = some next ∧ next < 4 ∧ next ∈ [goN, waitN, goE, waitE]) ∧
    (∃ m, mainLoop (boot 0 0 0) [1, 0, 3, 2] = some m ∧ m.S < 4 ∧ m.FSM = FSM
      ∧ m.S < m.FSM.length) :=
  ⟨by decide, by decide, by decide,
    C2_cursor_in_range 2 3 (by decide) (by decide) [1, 0, 3, 2] (by decide) 0 0 0⟩

/-- C3: in each of the four states the output pattern has exactly one of the
east-road pins PB5, PB4, PB3 high and exactly one of the north-road pins PB2,
PB1, PB0 high (and no higher bit); consequently every pattern stored to the
light port in a run from `goN` with sensor values below 4, and the pattern of
the state the run ends in, lights exactly one lamp per road. -/
theorem C3_one_lamp_per_road (s : Nat) (hs : s < 4) (rs : List Nat) (hrs : ∀ x ∈ rs, x < 4)
    (light reload current : Nat) :
    (∃ st, FSM[s]? = some st ∧ litCount st.Out eastPins = 1 ∧ litCount st.Out northPins = 1
      ∧ st.Out < 64) ∧
    (∃ m, mainLoop (boot light reload current) rs = some m
      ∧ (∀ p ∈ lightWrites m.trace, litCount p eastPins = 1 ∧ litCount p northPins = 1)
      ∧ ∃ st, m.FSM[m.S]? = some st ∧ litCount st.Out eastPins = 1
          ∧ litCount st.Out northPins = 1) := by
  have key : ∀ x, x < 4 → litCount (stateAt x).Out eastPins = 1
      ∧ litCount (stateAt x).Out northPins = 1 ∧ (stateAt x).Out < 64 := by
    intro x hx
    interval_cases x <;> decide
  constructor
  · exact ⟨stateAt s, FSM_lookup s hs, key s hs⟩
  · obtain ⟨m, hm, hF, _, hlt, ht⟩ :=
      mainLoop_spec rs (boot light reload current) rfl (boot_S_lt _ _ _) hrs
    refine ⟨m, hm, ?_, stateAt m.S, ?_, (key _ hlt).1, (key _ hlt).2.1⟩
    · intro p hp
      rw [ht, lightWrites_append, lightWrites_runTrace] at hp
      simp only [boot, lightWrites, List.nil_append, List.mem_map] at hp
      obtain ⟨x, hx, rfl⟩ := hp
      have hx4 := visited_lt rs goN (by decide) hrs x hx
      exact ⟨(key x hx4).1, (key x hx4).2.1⟩
    · rw [hF]
      exact FSM_lookup _ hlt

theorem C3_one_lamp_per_road_witness :
    1 < 4 ∧ (∀ x ∈ [3, 1, 2], x < 4) ∧
    (∃ st, FSM[1]? = some st ∧ litCount st.Out eastPins = 1 ∧ litCount st.Out northPins = 1
      ∧ st.Out < 64) ∧
    (∃ m, mainLoop (boot 0 0 0) [3, 1, 2] = some m
      ∧ (∀ p ∈ lightWrites m.trace, litCount p eastPins = 1 ∧ litCount p northPins = 1)
      ∧ ∃ st, m.FSM[m.S]? = some st ∧ litCount st.Out eastPins = 1
          ∧ litCount st.Out northPins = 1) :=
  ⟨by decide, by decide, C3_one_lamp_per_road 1 (by decide) [3, 1, 2] (by decide) 0 0 0⟩

/-- C4: the two clearance states ignore the sensor.  For every sensor value
`r < 4` the entry after `waitN` is `goE` and the entry after `waitE` is `goN`,
both states have the hold time 500, and a pass made with the cursor at `waitN`
(at `waitE`) waits 500 units and moves the cursor to `goE` (to `goN`) whatever
`r` is. -/
theorem C4_clearance_unconditional (r : Nat) (hr : r < 4) (m : Machine) (hF : m.FSM = FSM) :
    lookupNext waitN r = some goE ∧ lookupNext waitE r = some goN
    ∧ (FSM[waitN]?).map STyp.Time = some 500 ∧ (FSM[waitE]?).map STyp.Time = some 500
    ∧ (∃ m1, loopBody { m with S := waitN } r = some m1 ∧ m1.S = goE
        ∧ m1.trace = m.trace ++ passEvents 0x22 500 r)
    ∧ (∃ m1, loopBody { m with S := waitE } r = some m1 ∧ m1.S = goN
        ∧ m1.trace = m.trace ++ passEvents 0x14 500 r) := by
  refine ⟨by interval_cases r <;> decide, by interval_cases r <;> decide, by decide, by decide,
    ?_, ?_⟩
  · refine ⟨afterPass { m with S := waitN } r,
      loopBody_spec { m with S := waitN } r hF (by show waitN < 4; decide) hr, ?_, rfl⟩
    exact nextOf_waitN r hr
  · refine ⟨afterPass { m with S := waitE } r,
      loopBody_spec { m with S := waitE } r hF (by show waitE < 4; decide) hr, ?_, rfl⟩
    exact nextOf_waitE r hr

theorem C4_clearance_unconditional_witness :
    3 < 4 ∧ (boot 0 0 0).FSM = FSM ∧
    (lookupNext waitN 3 = some goE ∧ lookupNext waitE 3 = some goN
    ∧ (FSM[waitN]?).map STyp.Time = some 500 ∧ (FSM[waitE]?).map STyp.Time = some 500
    ∧ (∃ m1, loopBody { boot 0 0 0 with S := waitN } 3 = some m1 ∧ m1.S = goE
        ∧ m1.trace = (boot 0 0 0).trace ++ passEvents 0x22 500 3)
    ∧ (∃ m1, loopBody { boot 0 0 0 with S := waitE } 3 = some m1 ∧ m1.S = goN
        ∧ m1.trace = (boot 0 0 0).trace ++ passEvents 0x14 500 3)) :=
  ⟨by decide, rfl, C4_clearance_unconditional 3 (by decide) (boot 0 0 0) rfl⟩

/-- C5: from the initial machine (`S = goN`), if every sensor value of `rs` is
0 (no cars) or 2 (north car only), then after each number `k` of passes over
`rs` the loop has completed with the cursor at `goN`, and every pattern it
stored to the light port is that of `goN`. -/
theorem C5_hold_without_demand (rs : List Nat) (h : ∀ r ∈ rs, r = 0 ∨ r = 2) (k : Nat)
    (light reload current : Nat) :
    ∃ m, mainLoop (boot light reload current) (rs.take k) = some m ∧ m.S = goN
      ∧ ∀ p ∈ lightWrites m.trace, p = 0x21 := by
  have hk : ∀ r ∈ rs.take k, r = 0 ∨ r = 2 := fun r hr => h r (List.mem_of_mem_take hr)
  have hk4 : ∀ r ∈ rs.take k, r < 4 := by
    intro r hr
    rcases hk r hr with rfl | rfl <;> decide
  obtain ⟨m, hm, _, hS, _, ht⟩ :=
    mainLoop_spec (rs.take k) (boot light reload current) rfl (boot_S_lt _ _ _) hk4
  refine ⟨m, hm, ?_, ?_⟩
  · rw [hS]
    exact cursorAfter_hold _ hk
  · intro p hp
    rw [ht, lightWrites_append, lightWrites_runTrace] at hp
    simp only [boot, lightWrites, List.nil_append, List.mem_map] at hp
    obtain ⟨x, hx, rfl⟩ := hp
    rw [visited_hold _ hk x hx]
    rfl

theorem C5_hold_without_demand_witness :
    (∀ r ∈ [0, 2, 2, 0, 2], r = 0 ∨ r = 2) ∧
    ∃ m, mainLoop (boot 0 0 0) (([0, 2, 2, 0, 2] : List Nat).take 3) = some m ∧ m.S = goN
      ∧ ∀ p ∈ lightWrites m.trace, p = 0x21 :=
  ⟨by decide, C5_hold_without_demand [0, 2, 2, 0, 2] (by decide) 3 0 0 0⟩

/-- C6 (refuted as stated): with sensor value 3 (cars on both roads) the entry
after `goN` is `waitN` although 3 is not 1, and the entry after `goE` is
`waitE` although 3 is not 2. -/
theorem C6_counterexample :
    lookupNext goN 3 = some waitN ∧ (3 : Nat) ≠ 1 ∧ lookupNext goE 3 = some waitE ∧ (3 : Nat) ≠ 2
    ∧ ¬ (∀ r, r < 4 → (lookupNext goN r = some waitN ↔ r = 1)) :=
  ⟨by decide, by decide, by decide, by decide,
    fun h => absurd ((h 3 (by decide)).1 (by decide)) (by decide)⟩

/-- C6 (amended): for a sensor value `r < 4`, the entry after `goN` is `waitN`
exactly when `r` is 1 or 3 and `goN` exactly when `r` is 0 or 2; the entry after
`goE` is `waitE` exactly when `r` is 2 or 3 and `goE` exactly when `r` is 0 or 1. -/
theorem C6_green_transitions (r : Nat) (hr : r < 4) :
    (lookupNext goN r = some waitN ↔ r = 1 ∨ r = 3) ∧
    (lookupNext goN r = some goN ↔ r = 0 ∨ r = 2) ∧
    (lookupNext goE r = some waitE ↔ r = 2 ∨ r = 3) ∧
    (lookupNext goE r = some goE ↔ r = 0 ∨ r = 1) := by
  interval_cases r <;> decide

theorem C6_green_transitions_witness :
    3 < 4 ∧
    (lookupNext goN 3 = some waitN ↔ 3 = 1 ∨ 3 = 3) ∧
    (lookupNext goN 3 = some goN ↔ 3 = 0 ∨ 3 = 2) ∧
    (lookupNext goE 3 = some waitE ↔ 3 = 2 ∨ 3 = 3) ∧
    (lookupNext goE 3 = some goE ↔ 3 = 0 ∨ 3 = 1) :=
  ⟨by decide, C6_green_transitions 3 (by decide)⟩

/-- C7: priority scheme.  For a sensor value `r < 4` (bit 1 the north sensor,
bit 0 the east sensor) the entry after `goN` is `goN` iff bit 0 of `r` is clear
and `waitN` iff it is set; the entry after `goE` is `goE` iff bit 1 of `r` is
clear and `waitE` iff it is set; and a pass of the loop made with the cursor at
`goN` (at `goE`) moves the cursor accordingly. -/
theorem C7_priority (r : Nat) (hr : r < 4) (m : Machine) (hF : m.FSM = FSM) :
    (lookupNext goN r = some goN ↔ r.testBit 0 = false) ∧
    (lookupNext goN r = some waitN ↔ r.testBit 0 = true) ∧
    (lookupNext goE r = some goE ↔ r.testBit 1 = false) ∧
    (lookupNext goE r = some waitE ↔ r.testBit 1 = true) ∧
    (∃ m1, loopBody { m with S := goN } r = some m1
      ∧ m1.S = if r.testBit 0 then waitN else goN) ∧
    (∃ m1, loopBody { m with S := goE } r = some m1
      ∧ m1.S = if r.testBit 1 then waitE else goE) := by
  refine ⟨by interval_cases r <;> decide, by interval_cases r <;> decide,
    by interval_cases r <;> decide, by interval_cases r <;> decide, ?_, ?_⟩
  · refine ⟨afterPass { m with S := goN } r,
      loopBody_spec { m with S := goN } r hF (by show goN < 4; decide) hr, ?_⟩
    show nextOf goN r = _
    interval_cases r <;> rfl
  · refine ⟨afterPass { m with S := goE } r,
      loopBody_spec { m with S := goE } r hF (by show goE < 4; decide) hr, ?_⟩
    show nextOf goE r = _
    interval_cases r <;> rfl

theorem C7_priority_witness :
    3 < 4 ∧ (boot 0 0 0).FSM = FSM ∧
    ((lookupNext goN 3 = some goN ↔ (3 : Nat).testBit 0 = false) ∧
    (lookupNext goN 3 = some waitN ↔ (3 : Nat).testBit 0 = true) ∧
    (lookupNext goE 3 = some goE ↔ (3 : Nat).testBit 1 = false) ∧
    (lookupNext goE 3 = some waitE ↔ (3 : Nat).testBit 1 = true) ∧
    (∃ m1, loopBody { boot 0 0 0 with S := goN } 3 = some m1
      ∧ m1.S = if (3 : Nat).testBit 0 then waitN else goN) ∧
    (∃ m1, loopBody { boot 0 0 0 with S := goE } 3 = some m1
      ∧ m1.S = if (3 : Nat).testBit 1 then waitE else goE)) :=
  ⟨by decide, rfl, C7_priority 3 (by decide) (boot 0 0 0) rfl⟩

/-- C8 (refuted as stated): with the sensor values `[2, 1, 0, 0]` the four
passes are made in the states `goN`, `goN`, `waitN`, `goE` (waits 3000, 3000,
500, 3000), the cursor after them is `goE`, and it is `goN` only after the
first pass; the state `waitE` is never entered and the cursor is not back at
`goN`. -/
theorem C8_counterexample :
    (mainLoop (boot 0 0 0) [2]).map Machine.S = some goN ∧
    (mainLoop (boot 0 0 0) [2, 1]).map Machine.S = some waitN ∧
    (mainLoop (boot 0 0 0) [2, 1, 0]).map Machine.S = some goE ∧
    (mainLoop (boot 0 0 0) [2, 1, 0, 0]).map Machine.S = some goE ∧ goE ≠ goN ∧
    (mainLoop (boot 0 0 0) [2, 1, 0, 0]).map Machine.trace
      = some (passEvents 0x21 3000 2 ++ passEvents 0x21 3000 1 ++ passEvents 0x22 500 0
          ++ passEvents 0x0C 3000 0) ∧
    (mainLoop (boot 0 0 0) [2, 1, 0, 0]).map (fun m => busCycles m.trace)
      = some ((3000 + 3000 + 500 + 3000) * 800000) ∧
    ¬ (∃ m, mainLoop (boot 0 0 0) [2, 1, 0, 0] = some m ∧ m.S = goN) := by
  have h4 : ∀ x ∈ [2, 1, 0, 0], x < 4 := by decide
  have ht := mainLoop_trace [2, 1, 0, 0] h4 0 0 0
  have hrun : runTrace goN [2, 1, 0, 0]
      = passEvents 0x21 3000 2 ++ passEvents 0x21 3000 1 ++ passEvents 0x22 500 0
          ++ passEvents 0x0C 3000 0 := by
    simp only [runTrace, List.append_nil, List.append_assoc]
    rfl
  have hc := mainLoop_cursor [2, 1, 0, 0] h4 0 0 0
  refine ⟨?_, ?_, ?_, ?_, by decide, ?_, ?_, ?_⟩
  · rw [mainLoop_cursor [2] (by decide)]; rfl
  · rw [mainLoop_cursor [2, 1] (by decide)]; rfl
  · rw [mainLoop_cursor [2, 1, 0] (by decide)]; rfl
  · rw [hc]; rfl
  · rw [ht, hrun]
  · obtain ⟨m, hm, _, _, _, hmt⟩ := mainLoop_spec [2, 1, 0, 0] (boot 0 0 0) rfl
      (boot_S_lt _ _ _) h4
    rw [hm, Option.map_some', hmt]
    show some (busCycles ([] ++ runTrace goN [2, 1, 0, 0])) = _
    rw [hrun]
    simp only [List.nil_append, busCycles_append, busCycles_passEvents]
  · rintro ⟨m, hm, hS⟩
    rw [hm, Option.map_some', hS] at hc
    exact absurd hc (by decide)

/-- C8 (amended): from the initial machine, for sensor values below 4, the
values `[2, 1, r3, r4]` hold the cursor at `goN` in the first pass and then
move it to `waitN`, to `goE`, and to `waitE` if bit 1 of `r4` is set (`goE`
otherwise), the waits being 3000, 3000, 500, 3000; the full cycle `goN`,
`waitN`, `goE`, `waitE` and back to `goN`, with waits 3000, 500, 3000, 500, is
what the values `[1, r2, 2, r4]` produce. -/
theorem C8_full_cycle (r2 r3 r4 : Nat) (h2 : r2 < 4) (h3 : r3 < 4) (h4 : r4 < 4)
    (light reload current : Nat) :
    ((mainLoop (boot light reload current) [2]).map Machine.S = some goN ∧
     (mainLoop (boot light reload current) [2, 1]).map Machine.S = some waitN ∧
     (mainLoop (boot light reload current) [2, 1, r3]).map Machine.S = some goE ∧
     (mainLoop (boot light reload current) [2, 1, r3, r4]).map Machine.S
        = some (if r4.testBit 1 then waitE else goE) ∧
     (mainLoop (boot light reload current) [2, 1, r3, r4]).map Machine.trace
        = some (passEvents 0x21 3000 2 ++ passEvents 0x21 3000 1 ++ passEvents 0x22 500 r3
            ++ passEvents 0x0C 3000 r4)) ∧
    ((mainLoop (boot light reload current) [1]).map Machine.S = some waitN ∧
     (mainLoop (boot light reload current) [1, r2]).map Machine.S = some goE ∧
     (mainLoop (boot light reload current) [1, r2, 2]).map Machine.S = some waitE ∧
     (mainLoop (boot light reload current) [1, r2, 2, r4]).map Machine.S = some goN ∧
     (mainLoop (boot light reload current) [1, r2, 2, r4]).map Machine.trace
        = some (passEvents 0x21 3000 1 ++ passEvents 0x22 500 r2 ++ passEvents 0x0C 3000 2
            ++ passEvents 0x14 500 r4)) := by
  have e1 : nextOf goN 2 = goN := rfl
  have e2 : nextOf goN 1 = waitN := rfl
  have e3 := nextOf_waitN r3 h3
  have e4 := nextOf_waitN r2 h2
  have e5 : nextOf goE 2 = waitE := rfl
  have e6 := nextOf_waitE r4 h4
  have e7 : nextOf goE r4 = if r4.testBit 1 then waitE else goE := by
    interval_cases r4 <;> rfl
  have hA3 : ∀ x ∈ [2, 1, r3], x < 4 := by
    intro x hx
    simp only [List.mem_cons, List.mem_singleton, List.not_mem_nil, or_false] at hx
    rcases hx with rfl | rfl | rfl <;> omega
  have hA4 : ∀ x ∈ [2, 1, r3, r4], x < 4 := by
    intro x hx
    simp only [List.mem_cons, List.mem_singleton, List.not_mem_nil, or_false] at hx
    rcases hx with rfl | rfl | rfl | rfl <;> omega
  have hB2 : ∀ x ∈ [1, r2], x < 4 := by
    intro x hx
    simp only [List.mem_cons, List.mem_singleton, List.not_mem_nil, or_false] at hx
    rcases hx with rfl | rfl <;> omega
  have hB3 : ∀ x ∈ [1, r2, 2], x < 4 := by
    intro x hx
    simp only [List.mem_cons, List.mem_singleton, List.not_mem_nil, or_false] at hx
    rcases hx with rfl | rfl | rfl <;> omega
  have hB4 : ∀ x ∈ [1, r2, 2, r4], x < 4 := by
    intro x hx
    simp only [List.mem_cons, List.mem_singleton, List.not_mem_nil, or_false] at hx
    rcases hx with rfl | rfl | rfl | rfl <;> omega
  refine ⟨⟨?_, ?_, ?_, ?_, ?_⟩, ⟨?_, ?_, ?_, ?_, ?_⟩⟩
  · rw [mainLoop_cursor [2] (by decide)]; rfl
  · rw [mainLoop_cursor [2, 1] (by decide)]; rfl
  · rw [mainLoop_cursor _ hA3]
    simp only [cursorAfter, e1, e2, e3]
  · rw [mainLoop_cursor _ hA4]
    simp only [cursorAfter, e1, e2, e3, e7]
  · rw [mainLoop_trace _ hA4]
    simp only [runTrace, e1, e2, e3, List.append_nil, List.append_assoc]
    rfl
  · rw [mainLoop_cursor [1] (by decide)]; rfl
  · rw [mainLoop_cursor _ hB2]
    simp only [cursorAfter, e2, e4]
  · rw [mainLoop_cursor _ hB3]
    simp only [cursorAfter, e2, e4, e5]
  · rw [mainLoop_cursor _ hB4]
    simp only [cursorAfter, e2, e4, e5, e6]
  · rw [mainLoop_trace _ hB4]
    simp only [runTrace, e2, e4, e5, List.append_nil, List.append_assoc]
    rfl

theorem C8_full_cycle_witness :
    3 < 4 ∧ 0 < 4 ∧ 2 < 4 ∧
    ((mainLoop (boot 0 0 0) [2]).map Machine.S = some goN ∧
     (mainLoop (boot 0 0 0) [2, 1]).map Machine.S = some waitN ∧
     (mainLoop (boot 0 0 0) [2, 1, 0]).map Machine.S = some goE ∧
     (mainLoop (boot 0 0 0) [2, 1, 0, 2]).map Machine.S
        = some (if (2 : Nat).testBit 1 then waitE else goE) ∧
     (mainLoop (boot 0 0 0) [2, 1, 0, 2]).map Machine.trace
        = some (passEvents 0x21 3000 2 ++ passEvents 0x21 3000 1 ++ passEvents 0x22 500 0
            ++ passEvents 0x0C 3000 2)) ∧
    ((mainLoop (boot 0 0 0) [1]).map Machine.S = some waitN ∧
     (mainLoop (boot 0 0 0) [1, 3]).map Machine.S = some goE ∧
     (mainLoop (boot 0 0 0) [1, 3, 2]).map Machine.S = some waitE ∧
     (mainLoop (boot 0 0 0) [1, 3, 2, 2]).map Machine.S = some goN ∧
     (mainLoop (boot 0 0 0) [1, 3, 2, 2]).map Machine.trace
        = some (passEvents 0x21 3000 1 ++ passEvents 0x22 500 3 ++ passEvents 0x0C 3000 2
            ++ passEvents 0x14 500 2)) :=
  ⟨by decide, by decide, by decide,
    C8_full_cycle 3 0 2 (by decide) (by decide) (by decide) 0 0 0⟩

/-- C9: a clearance state separates the two green phases.  For `s < 4` and
`r < 4`, an entry `FSM[s].Next[r]` equal to `goE` occurs only for `s = waitN` or
`s = goE`, and one equal to `goN` only for `s = waitE` or `s = goN`; and in
every run from `goN` with sensor values below 4, any two patterns stored to the
light port in consecutive passes satisfy `clearanceStep`: a green road is green
or yellow, not red, in the next pass, and a road becomes green only right after
the other road showed yellow. -/
theorem C9_clearance_between_greens (s r : Nat) (hs : s < 4) (hr : r < 4) (rs : List Nat)
    (hrs : ∀ x ∈ rs, x < 4) (light reload current : Nat) :
    (lookupNext s r = some goE → s = waitN ∨ s = goE) ∧
    (lookupNext s r = some goN → s = waitE ∨ s = goN) ∧
    ∃ m, mainLoop (boot light reload current) rs = some m
      ∧ List.Chain' clearanceStep (lightWrites m.trace) := by
  refine ⟨by interval_cases s <;> interval_cases r <;> decide,
    by interval_cases s <;> interval_cases r <;> decide, ?_⟩
  obtain ⟨m, hm, _, _, _, ht⟩ :=
    mainLoop_spec rs (boot light reload current) rfl (boot_S_lt _ _ _) hrs
  refine ⟨m, hm, ?_⟩
  rw [ht, lightWrites_append, lightWrites_runTrace]
  exact chain_visited rs goN (by decide) hrs

theorem C9_clearance_between_greens_witness :
    1 < 4 ∧ 2 < 4 ∧ (∀ x ∈ [1, 0, 2, 3, 1], x < 4) ∧
    ((lookupNext 1 2 = some goE → 1 = waitN ∨ 1 = goE) ∧
    (lookupNext 1 2 = some goN → 1 = waitE ∨ 1 = goN) ∧
    ∃ m, mainLoop (boot 0 0 0) [1, 0, 2, 3, 1] = some m
      ∧ List.Chain' clearanceStep (lightWrites m.trace)) :=
  ⟨by decide, by decide, by decide,
    C9_clearance_between_greens 1 2 (by decide) (by decide) [1, 0, 2, 3, 1] (by decide) 0 0 0⟩

/-! ## The SysTick delay -/

/-- C10: for every `unsigned long` argument `n`, `SysTick_Wait10ms(n)` returns
after exactly `n` calls `SysTick_Wait(800000)` and nothing else observable;
each call writes the reload value 799999, which is below `2 ^ 24`; the calls
count `800000 * n` bus cycles, which at 12.5 ns per cycle is `n` times 10 ms.
With `n = 0` the machine is returned unchanged, and the hold time 3000 of `goN`
amounts to 30 s. -/
theorem C10_wait10ms (n : Nat) (hn : n < ULONG_MOD) (m : Machine) :
    ∃ m1, SysTick_Wait10ms n m = some m1
      ∧ m1.trace = m.trace ++ List.replicate n (Event.sysTickWait 800000)
      ∧ m1.FSM = m.FSM ∧ m1.S = m.S ∧ m1.Input = m.Input ∧ m1.LIGHT = m.LIGHT
      ∧ reloadOf 800000 = 799999 ∧ reloadOf 800000 < 2 ^ 24
      ∧ busCycles m1.trace = busCycles m.trace + 800000 * n
      ∧ (800000 * n) * BUS_PERIOD_PS = n * TEN_MS_PS
      ∧ SysTick_Wait10ms 0 m = some m
      ∧ ∃ st, FSM[goN]? = some st ∧ st.Time = 3000
          ∧ (800000 * st.Time) * BUS_PERIOD_PS = 30 * SECOND_PS := by
  refine ⟨(SysTick_Wait 800000)^[n] m, SysTick_Wait10ms_eq n m hn, iterate_wait_trace _ _ _,
    iterate_wait_FSM _ _ _, iterate_wait_S _ _ _, iterate_wait_Input _ _ _,
    iterate_wait_LIGHT _ _ _, reloadOf_800000, by decide, ?_, ?_, ?_, ?_⟩
  · rw [iterate_wait_trace, busCycles_append, busCycles_replicate, waitCycles_800000]
  · simp only [BUS_PERIOD_PS, TEN_MS_PS]
    ring
  · exact SysTick_Wait10ms_eq 0 m (by decide)
  · exact ⟨stateAt goN, rfl, rfl, by decide⟩

theorem C10_wait10ms_witness :
    3000 < ULONG_MOD ∧
    ∃ m1, SysTick_Wait10ms 3000 (boot 0 0 0) = some m1
      ∧ m1.trace = (boot 0 0 0).trace ++ List.replicate 3000 (Event.sysTickWait 800000)
      ∧ m1.FSM = (boot 0 0 0).FSM ∧ m1.S = (boot 0 0 0).S ∧ m1.Input = (boot 0 0 0).Input
      ∧ m1.LIGHT = (boot 0 0 0).LIGHT
      ∧ reloadOf 800000 = 799999 ∧ reloadOf 800000 < 2 ^ 24
      ∧ busCycles m1.trace = busCycles (boot 0 0 0).trace + 800000 * 3000
      ∧ (800000 * 3000) * BUS_PERIOD_PS = 3000 * TEN_MS_PS
      ∧ SysTick_Wait10ms 0 (boot 0 0 0) = some (boot 0 0 0)
      ∧ ∃ st, FSM[goN]? = some st ∧ st.Time = 3000
          ∧ (800000 * st.Time) * BUS_PERIOD_PS = 30 * SECOND_PS :=
  ⟨by decide, C10_wait10ms 3000 (by decide) (boot 0 0 0)⟩

end TrafficLight

/-! ## The Port F output operations of the pacemaker -/

namespace Pacemaker

theorem complement_2 : complement 0x2 = 0xFFFFFFFD := by decide

theorem complement_8 : complement 0x8 = 0xFFFFFFF7 := by decide

theorem testBit_two (k : Nat) : (2 : Nat).testBit k = decide (k = 1) := by
  have h := @Nat.testBit_two_pow 1 k
  simp only [pow_one] at h
  rw [h]
  simp [eq_comm]

theorem testBit_eight (k : Nat) : (8 : Nat).testBit k = decide (k = 3) := by
  have h := @Nat.testBit_two_pow 3 k
  norm_num at h
  rw [h]
  simp [eq_comm]

theorem testBit_high (v k : Nat) (hv : v < 2 ^ 32) (hk : 32 ≤ k) : v.testBit k = false :=
  Nat.testBit_lt_two_pow (Nat.lt_of_lt_of_le hv (Nat.pow_le_pow_right (by decide) hk))

theorem testBit_mask_2 (k : Nat) (hk : k < 32) :
    (0xFFFFFFFD : Nat).testBit k = decide (k ≠ 1) := by
  interval_cases k <;> decide

theorem testBit_mask_8 (k : Nat) (hk : k < 32) :
    (0xFFFFFFF7 : Nat).testBit k = decide (k ≠ 3) := by
  interval_cases k <;> decide

theorem SetVT_testBit (v k : Nat) : (SetVT v).testBit k = (v.testBit k || decide (k = 1)) := by
  rw [SetVT, Nat.testBit_or, testBit_two]

theorem SetReady_testBit (v k : Nat) :
    (SetReady v).testBit k = (v.testBit k || decide (k = 3)) := by
  rw [SetReady, Nat.testBit_or, testBit_eight]

theorem ClearVT_testBit (v k : Nat) (hv : v < 2 ^ 32) :
    (ClearVT v).testBit k = (v.testBit k && decide (k ≠ 1)) := by
  rw [ClearVT, complement_2, Nat.testBit_and]
  by_cases hk : k < 32
  · rw [testBit_mask_2 k hk]
  · rw [testBit_high v k hv (by omega), Bool.false_and, Bool.false_and]

theorem ClearReady_testBit (v k : Nat) (hv : v < 2 ^ 32) :
    (ClearReady v).testBit k = (v.testBit k && decide (k ≠ 3)) := by
  rw [ClearReady, complement_8, Nat.testBit_and]
  by_cases hk : k < 32
  · rw [testBit_mask_8 k hk]
  · rw [testBit_high v k hv (by omega), Bool.false_and, Bool.false_and]

theorem SetVT_lt (v : Nat) (hv : v < 2 ^ 32) : SetVT v < 2 ^ 32 :=
  Nat.or_lt_two_pow hv (by decide)

theorem SetReady_lt (v : Nat) (hv : v < 2 ^ 32) : SetReady v < 2 ^ 32 :=
  Nat.or_lt_two_pow hv (by decide)

theorem ClearVT_lt (v : Nat) : ClearVT v < 2 ^ 32 := by
  rw [ClearVT, complement_2]
  exact Nat.and_lt_two_pow v (by decide)

theorem ClearReady_lt (v : Nat) : ClearReady v < 2 ^ 32 := by
  rw [ClearReady, complement_8]
  exact Nat.and_lt_two_pow v (by decide)

/-- C11: for every 32-bit content `v` of the Port F data register, `SetVT`
leaves bit 1 set and `ClearVT` leaves it clear, `SetReady` leaves bit 3 set
and `ClearReady` leaves it clear, each with every other bit as in `v`; each
operation is idempotent, and each of `SetVT`, `ClearVT` commutes with each of
`SetReady`, `ClearReady`. -/
theorem C11_port_operations (v : Nat) (hv : v < 2 ^ 32) :
    ((SetVT v).testBit 1 = true ∧ ∀ k, k ≠ 1 → (SetVT v).testBit k = v.testBit k) ∧
    ((ClearVT v).testBit 1 = false ∧ ∀ k, k ≠ 1 → (ClearVT v).testBit k = v.testBit k) ∧
    ((SetReady v).testBit 3 = true ∧ ∀ k, k ≠ 3 → (SetReady v).testBit k = v.testBit k) ∧
    ((ClearReady v).testBit 3 = false ∧ ∀ k, k ≠ 3 → (ClearReady v).testBit k = v.testBit k) ∧
    (SetVT (SetVT v) = SetVT v ∧ ClearVT (ClearVT v) = ClearVT v
      ∧ SetReady (SetReady v) = SetReady v ∧ ClearReady (ClearReady v) = ClearReady v) ∧
    (SetVT (SetReady v) = SetReady (SetVT v) ∧ SetVT (ClearReady v) = ClearReady (SetVT v)
      ∧ ClearVT (SetReady v) = SetReady (ClearVT v)
      ∧ ClearVT (ClearReady v) = ClearReady (ClearVT v)) := by
  have hsv := SetVT_lt v hv
  have hsr := SetReady_lt v hv
  have hcv := ClearVT_lt v
  have hcr := ClearReady_lt v
  refine ⟨⟨?_, ?_⟩, ⟨?_, ?_⟩, ⟨?_, ?_⟩, ⟨?_, ?_⟩, ⟨?_, ?_, ?_, ?_⟩, ⟨?_, ?_, ?_, ?_⟩⟩
  · simp [SetVT_testBit]
  · intro k hk; simp [SetVT_testBit, hk]
  · simp [ClearVT_testBit v 1 hv]
  · intro k hk; simp [ClearVT_testBit v k hv, hk]
  · simp [SetReady_testBit]
  · intro k hk; simp [SetReady_testBit, hk]
  · simp [ClearReady_testBit v 3 hv]
  · intro k hk; simp [ClearReady_testBit v k hv, hk]
  · apply Nat.eq_of_testBit_eq; intro k
    simp [SetVT_testBit]
  · apply Nat.eq_of_testBit_eq; intro k
    rw [ClearVT_testBit _ k hcv, ClearVT_testBit v k hv]
    simp
  · apply Nat.eq_of_testBit_eq; intro k
    simp [SetReady_testBit]
  · apply Nat.eq_of_testBit_eq; intro k
    rw [ClearReady_testBit _ k hcr, ClearReady_testBit v k hv]
    simp
  · apply Nat.eq_of_testBit_eq; intro k
    simp only [SetVT_testBit, SetReady_testBit]
    cases v.testBit k <;> by_cases h1 : k = 1 <;> by_cases h3 : k = 3 <;> simp [h1, h3]
  · apply Nat.eq_of_testBit_eq; intro k
    rw [SetVT_testBit, ClearReady_testBit v k hv, ClearReady_testBit _ k hsv, SetVT_testBit]
    cases v.testBit k <;> by_cases h1 : k = 1 <;> by_cases h3 : k = 3 <;> simp [h1, h3]
  · apply Nat.eq_of_testBit_eq; intro k
    rw [ClearVT_testBit _ k hsr, SetReady_testBit, SetReady_testBit, ClearVT_testBit v k hv]
    cases v.testBit k <;> by_cases h1 : k = 1 <;> by_cases h3 : k = 3 <;> simp [h1, h3]
  · apply Nat.eq_of_testBit_eq; intro k
    rw [ClearVT_testBit _ k hcr, ClearReady_testBit v k hv, ClearReady_testBit _ k hcv,
      ClearVT_testBit v k hv]
    cases v.testBit k <;> by_cases h1 : k = 1 <;> by_cases h3 : k = 3 <;> simp [h1, h3]

theorem C11_port_operations_witness :
    0x1B < 2 ^ 32 ∧
    (((SetVT 0x1B).testBit 1 = true ∧ ∀ k, k ≠ 1 → (SetVT 0x1B).testBit k = (0x1B).testBit k) ∧
    ((ClearVT 0x1B).testBit 1 = false
      ∧ ∀ k, k ≠ 1 → (ClearVT 0x1B).testBit k = (0x1B).testBit k) ∧
    ((SetReady 0x1B).testBit 3 = true
      ∧ ∀ k, k ≠ 3 → (SetReady 0x1B).testBit k = (0x1B).testBit k) ∧
    ((ClearReady 0x1B).testBit 3 = false
      ∧ ∀ k, k ≠ 3 → (ClearReady 0x1B).testBit k = (0x1B).testBit k) ∧
    (SetVT (SetVT 0x1B) = SetVT 0x1B ∧ ClearVT (ClearVT 0x1B) = ClearVT 0x1B
      ∧ SetReady (SetReady 0x1B) = SetReady 0x1B
      ∧ ClearReady (ClearReady 0x1B) = ClearReady 0x1B) ∧
    (SetVT (SetReady 0x1B) = SetReady (SetVT 0x1B)
      ∧ SetVT (ClearReady 0x1B) = ClearReady (SetVT 0x1B)
      ∧ ClearVT (SetReady 0x1B) = SetReady (ClearVT 0x1B)
      ∧ ClearVT (ClearReady 0x1B) = ClearReady (ClearVT 0x1B))) :=
  ⟨by decide, C11_port_operations 0x1B (by decide)⟩

end Pacemaker

/-! ## The recorded time stamps -/

namespace FunctionalDebugging

theorem and_mask24 (x : Nat) : x &&& 0x00FFFFFF = x % 16777216 :=
  Nat.and_pow_two_sub_one_eq_mod x 24

theorem sub32_eq (a b : Nat) (ha : a < 4294967296) (hb : b < 4294967296) :
    sub32 a b = if b ≤ a then a - b else 4294967296 - (b - a) := by
  have hM : ULONG_MOD = 4294967296 := by decide
  rw [sub32, hM, Nat.mod_eq_of_lt ha, Nat.mod_eq_of_lt hb]

theorem timeStamp_eq (last now : Nat) (hl : last < 16777216) (hn : now < 16777216) :
    timeStamp last now = if now ≤ last then last - now else last + 16777216 - now := by
  rw [timeStamp, and_mask24, sub32_eq last now (by omega) (by omega)]
  split <;> omega

theorem tick_iterate (e : Nat) :
    ∀ c, c < 16777216 → tick^[e] c < 16777216 ∧ (tick^[e] c + e) % 16777216 = c := by
  induction e with
  | zero => intro c hc; exact ⟨hc, by simpa using Nat.mod_eq_of_lt hc⟩
  | succ e ih =>
    intro c hc
    obtain ⟨hlt, hmod⟩ := ih c hc
    rw [Function.iterate_succ_apply']
    generalize tick^[e] c = x at hlt hmod
    unfold tick
    split <;> omega

/-- C12: for readings `last` and `now` of the 24-bit SysTick down-counter (both
below `2 ^ 24`), the value `(last-now) & 0x00FFFFFF` computed in 32-bit unsigned
arithmetic is `(last - now) mod 2 ^ 24`: it is `last - now` when the counter
did not wrap and `last + 2 ^ 24 - now` when `now > last`; whenever `now` is the
counter `e < 2 ^ 24` clock ticks after `last`, it equals `e`; and it is the value
the recording block stores in `Time[i]`. -/
theorem C12_time_stamp (last now : Nat) (hl : last < 2 ^ 24) (hn : now < 2 ^ 24)
    (st : Recorder) (data : Nat) (hi : st.i < 50) (hlen : st.Time.length = 50)
    (hlast : st.last = last) :
    ((timeStamp last now : Nat) : Int) = ((last : Int) - (now : Int)) % 2 ^ 24
    ∧ timeStamp last now < 2 ^ 24
    ∧ (now ≤ last → timeStamp last now = last - now)
    ∧ (last < now → timeStamp last now = last + 2 ^ 24 - now)
    ∧ (∀ e, e < 2 ^ 24 → tick^[e] last = now → timeStamp last now = e)
    ∧ (record st now data).Time[st.i]? = some (timeStamp last now)
    ∧ (record st now data).last = now ∧ (record st now data).i = st.i + 1 := by
  have h24 : (2 : Nat) ^ 24 = 16777216 := by norm_num
  have h24i : (2 : Int) ^ 24 = 16777216 := by norm_num
  rw [h24] at hl hn
  rw [h24, h24i]
  have hts := timeStamp_eq last now hl hn
  refine ⟨?_, ?_, ?_, ?_, ?_, ?_, ?_, ?_⟩
  · rw [hts]
    split
    · rename_i h
      rw [Nat.cast_sub h]
      omega
    · rename_i h
      have h1 : now ≤ last + 16777216 := by omega
      rw [Nat.cast_sub h1]
      push_cast
      omega
  · rw [hts]; split <;> omega
  · intro h; rw [hts, if_pos h]
  · intro h; rw [hts, if_neg (by omega)]
  · intro e he hnow
    obtain ⟨_, hmod⟩ := tick_iterate e last hl
    rw [hnow] at hmod
    rw [hts]
    split <;> omega
  · have hidx : st.i < st.Time.length := by omega
    simp [record, hi, hlast, hidx]
  · simp [record, hi]
  · have hmod : (st.i + 1) % ULONG_MOD = st.i + 1 :=
      Nat.mod_eq_of_lt (by have hM : ULONG_MOD = 4294967296 := by decide
                           omega)
    simp [record, hi, hmod]

theorem C12_time_stamp_witness :
    5 < 2 ^ 24 ∧ 0xFFFFFA < 2 ^ 24 ∧ (start 5 0).i < 50 ∧ (start 5 0).Time.length = 50 ∧
    (start 5 0).last = 5 ∧
    (((timeStamp 5 0xFFFFFA : Nat) : Int)
        = (((5 : Nat) : Int) - ((0xFFFFFA : Nat) : Int)) % 2 ^ 24
    ∧ timeStamp 5 0xFFFFFA < 2 ^ 24
    ∧ (0xFFFFFA ≤ 5 → timeStamp 5 0xFFFFFA = 5 - 0xFFFFFA)
    ∧ (5 < 0xFFFFFA → timeStamp 5 0xFFFFFA = 5 + 2 ^ 24 - 0xFFFFFA)
    ∧ (∀ e, e < 2 ^ 24 → tick^[e] 5 = 0xFFFFFA → timeStamp 5 0xFFFFFA = e)
    ∧ (record (start 5 0) 0xFFFFFA 0x11).Time[(start 5 0).i]? = some (timeStamp 5 0xFFFFFA)
    ∧ (record (start 5 0) 0xFFFFFA 0x11).last = 0xFFFFFA
    ∧ (record (start 5 0) 0xFFFFFA 0x11).i = (start 5 0).i + 1) :=
  ⟨by decide, by decide, by decide, by simp [start], rfl,
    C12_time_stamp 5 0xFFFFFA (by decide) (by decide) (start 5 0) 0x11 (by decide)
      (by simp [start]) rfl⟩

end FunctionalDebugging

/-! ## The two roads never conflict -/

namespace TrafficLight

theorem noConflict_table (x : Nat) (hx : x < 4) :
    noConflict (stateAt x).Out
      ∧ (eastRed (stateAt x).Out = true ∨ northRed (stateAt x).Out = true) := by
  unfold noConflict
  interval_cases x <;> decide

/-- C13: in each of the four states at least one road shows red, and the
pattern never lights a green or yellow lamp of the north road (PB0, PB1)
together with a green or yellow lamp of the east road (PB3, PB4); `goN` and
`waitN` show east red, `goE` and `waitE` show north red; consequently every
pattern stored to the light port in a run from `goN` with sensor values below
4, and the pattern of the state the run ends in, is free of conflict. -/
theorem C13_roads_never_conflict (s : Nat) (hs : s < 4) (rs : List Nat)
    (hrs : ∀ x ∈ rs, x < 4) (light reload current : Nat) :
    (∃ st, FSM[s]? = some st ∧ (eastRed st.Out = true ∨ northRed st.Out = true)
      ∧ noConflict st.Out) ∧
    ((FSM[goN]?).map (fun st => eastRed st.Out) = some true
      ∧ (FSM[waitN]?).map (fun st => eastRed st.Out) = some true
      ∧ (FSM[goE]?).map (fun st => northRed st.Out) = some true
      ∧ (FSM[waitE]?).map (fun st => northRed st.Out) = some true) ∧
    (∃ m, mainLoop (boot light reload current) rs = some m
      ∧ (∀ p ∈ lightWrites m.trace,
          noConflict p ∧ (eastRed p = true ∨ northRed p = true))
      ∧ ∃ st, m.FSM[m.S]? = some st ∧ noConflict st.Out) := by
  refine ⟨⟨stateAt s, FSM_lookup s hs, (noConflict_table s hs).2, (noConflict_table s hs).1⟩,
    ⟨by decide, by decide, by decide, by decide⟩, ?_⟩
  obtain ⟨m, hm, hF, _, hlt, ht⟩ :=
    mainLoop_spec rs (boot light reload current) rfl (boot_S_lt _ _ _) hrs
  refine ⟨m, hm, ?_, stateAt m.S, ?_, (noConflict_table _ hlt).1⟩
  · intro p hp
    rw [ht, lightWrites_append, lightWrites_runTrace] at hp
    simp only [boot, lightWrites, List.nil_append, List.mem_map] at hp
    obtain ⟨x, hx, rfl⟩ := hp
    exact noConflict_table x (visited_lt rs goN (by decide) hrs x hx)
  · rw [hF]
    exact FSM_lookup _ hlt

theorem C13_roads_never_conflict_witness :
    2 < 4 ∧ (∀ x ∈ [3, 0, 2, 1, 3], x < 4) ∧
    ((∃ st, FSM[2]? = some st ∧ (eastRed st.Out = true ∨ northRed st.Out = true)
      ∧ noConflict st.Out) ∧
    ((FSM[goN]?).map (fun st => eastRed st.Out) = some true
      ∧ (FSM[waitN]?).map (fun st => eastRed st.Out) = some true
      ∧ (FSM[goE]?).map (fun st => northRed st.Out) = some true
      ∧ (FSM[waitE]?).map (fun st => northRed st.Out) = some true) ∧
    (∃ m, mainLoop (boot 0 0 0) [3, 0, 2, 1, 3] = some m
      ∧ (∀ p ∈ lightWrites m.trace,
          noConflict p ∧ (eastRed p = true ∨ northRed p = true))
      ∧ ∃ st, m.FSM[m.S]? = some st ∧ noConflict st.Out)) :=
  ⟨by decide, by decide,
    C13_roads_never_conflict 2 (by decide) [3, 0, 2, 1, 3] (by decide) 0 0 0⟩

end TrafficLight
